import Mathlib

/-!
Verification of the watch-your-back player: a shallow embedding of
src/player.py (turn/phase/shrink control) and src/moving_strategy.py
(movement strategies), over a board model reconstructed from the spec
where board_state.py, move.py and action.py are not in the sources.
-/

namespace WYB

/-! ## Board model

Modelled from the spec: board_state.py is absent from the sources.  Per the
spec, a BoardState is a fixed 8x8 grid of cells, each Empty, Corner, or
occupied by one of the two sides, together with an active-region mask that
shrinks monotonically.  The cell content is kept as the character the
Python code compares against: 'O' white piece, '@' black piece, '-' empty,
'X' corner; coordinates off the 8x8 board read as ' '.  The number of
shrink events performed determines the active region. -/
structure BoardState where
  grid : Int → Int → Char
  shrinks : Nat

/-- Modelled from the spec: the code passes both piece symbols ('O', '@')
and team symbols ('W', 'B') to board queries; both denote the two sides
(spec section 6: two distinct symbols for the two sides). -/
def charToPiece (c : Char) : Char :=
  if c == 'W' then 'O' else if c == 'B' then '@' else c

/-- The piece character of the side opposing `c`. -/
def oppositePiece (c : Char) : Char :=
  if c == 'O' then '@' else 'O'

/-- Whether the coordinate lies in the active region after `b.shrinks`
shrink events (spec: the active region shrinks one outer ring per event). -/
def BoardState.inActive (b : BoardState) (c r : Int) : Bool :=
  decide ((b.shrinks : Int) ≤ c) && decide (c ≤ 7 - (b.shrinks : Int)) &&
  decide ((b.shrinks : Int) ≤ r) && decide (r ≤ 7 - (b.shrinks : Int))

/-- Modelled from the spec: BoardState.output_piece reads cell occupancy. -/
def BoardState.output_piece (b : BoardState) (c r : Int) : Char :=
  b.grid c r

/-- All 64 coordinates of the 8x8 grid, row-major, as (column, row). -/
def allCoords : List (Int × Int) :=
  (List.range 8).flatMap (fun r => (List.range 8).map (fun c => ((c : Int), (r : Int))))

/-- Modelled from the spec: search_board(colour) returns the ordered
collection of coordinates holding that colour (spec section 4.1). -/
def BoardState.search_board (b : BoardState) (colour : Char) : List (Int × Int) :=
  allCoords.filter (fun p => b.grid p.1 p.2 == charToPiece colour)

/-- A movement action: source and destination cell (spec section 3). -/
structure Move where
  src : Int × Int
  dst : Int × Int
deriving DecidableEq

/-- Modelled from the spec: constructing Move(board, col, row, ncol, nrow)
raises InvalidMoveError when the destination is occupied, inactive, or out
of range (spec sections 4.1 and 7); `none` models the raised error, which
every caller catches as "this candidate is illegal". -/
def mkMove (b : BoardState) (col row ncol nrow : Int) : Option Move :=
  if b.inActive ncol nrow && (b.grid ncol nrow == '-') then
    some ⟨(col, row), (ncol, nrow)⟩
  else
    none

/-- Modelled from the spec: action.py is absent.  In the moving phase an
Action(board, enemy, action=None, move=move) wraps one movement. -/
structure Action where
  move : Move
deriving DecidableEq

/-- return_action reports the wrapped movement to the referee. -/
def Action.return_action (a : Action) : Move := a.move

/-- The four orthogonal directions, in a fixed deterministic order. -/
def dirs : List (Int × Int) := [(0, 1), (0, -1), (1, 0), (-1, 0)]

/-- Modelled from the spec (custodial capture, section 4.1): on the grid as
it stands after the moved piece reached `dst`, the cell `p` is captured
when for some direction it is the immediate neighbour of `dst`, holds the
opposing colour, and the cell beyond it in the same direction holds the
mover's colour or is a corner. -/
def capturedAt (g : Int → Int → Char) (mover : Char) (dst : Int × Int) (p : Int × Int) : Bool :=
  dirs.any fun d =>
    p == (dst.1 + d.1, dst.2 + d.2) &&
    g p.1 p.2 == oppositePiece mover &&
    (g (dst.1 + 2 * d.1) (dst.2 + 2 * d.2) == mover ||
     g (dst.1 + 2 * d.1) (dst.2 + 2 * d.2) == 'X')

/-- Modelled from the spec: BoardState.modify applies a movement
atomically, then resolves captures (spec section 4.1).  Throughout the
code the second argument is the character of the mover's enemy, so the
moving side is its opposite. -/
def BoardState.modify (b : BoardState) (a : Action) (enemyArg : Char) : BoardState :=
  let mover := oppositePiece (charToPiece enemyArg)
  let g1 : Int → Int → Char := fun c r =>
    if c = a.move.dst.1 ∧ r = a.move.dst.2 then mover
    else if c = a.move.src.1 ∧ r = a.move.src.2 then '-'
    else b.grid c r
  { b with grid := fun c r => if capturedAt g1 mover a.move.dst (c, r) then '-' else g1 c r }

/-- Modelled from the spec: BoardState(None, other) constructs a private,
disposable copy of `other` (spec section 5). -/
def copyBoard (b : BoardState) : BoardState :=
  ⟨b.grid, b.shrinks⟩

/-- Modelled from the spec: move.py's generate_moves is absent.  Spec
section 4.2: for every active cell occupied by the colour, a step move to
each orthogonally adjacent empty active cell, and a jump over an adjacent
occupied cell landing on the next cell in the same direction if that
landing cell is empty and active; produced in a stable deterministic
order. -/
def generate_moves (b : BoardState) (colour : Char) : List Move :=
  allCoords.flatMap fun p =>
    if b.inActive p.1 p.2 && (b.grid p.1 p.2 == charToPiece colour) then
      dirs.flatMap fun d =>
        let s1 : Int × Int := (p.1 + d.1, p.2 + d.2)
        let s2 : Int × Int := (p.1 + 2 * d.1, p.2 + 2 * d.2)
        (if b.inActive s1.1 s1.2 && (b.grid s1.1 s1.2 == '-') then
          [Move.mk p s1] else []) ++
        (if (b.grid s1.1 s1.2 == 'O' || b.grid s1.1 s1.2 == '@') &&
            (b.inActive s2.1 s2.2 && (b.grid s2.1 s2.2 == '-')) then
          [Move.mk p s2] else [])
    else []

/-! ## moving_strategy.py -/

/-- moving_strategy.py lines 220-229: the possible moves of the side whose
enemy is `enemy`. -/
def generate_move (board_state : BoardState) (enemy : Char) : List Move :=
  if enemy == '@' then generate_moves board_state 'W'
  else generate_moves board_state 'B'

/-- moving_strategy.py lines 14-37.  The call random.randint(0, len-1)
returns an arbitrary in-range index; it is modelled by an arbitrary
natural number `r` reduced modulo the list length. -/
def do_random_move (board_state : BoardState) (enemy : Char) (r : Nat) : Option Action :=
  let poss_moves := if enemy == '@' then generate_moves board_state 'W'
                    else generate_moves board_state 'B'
  if poss_moves.length != 0 then
    (poss_moves[r % poss_moves.length]?).map (fun move => Action.mk move)
  else
    none

/-- player.py lines 52-55 and 74-78, moving phase: the value reported to
the referee (board mutation by modify is not represented here; `none`
reports a forfeited action). -/
def moving_phase_action (board : BoardState) (enemy : Char) (r : Nat) : Option Move :=
  let action := do_random_move board enemy r
  match action with
  | none => none
  | some a => some a.return_action

/-- moving_strategy.py lines 62-93.  tile_dict has keys 0-3 only; any
other rank raises KeyError (unreachable from the callers). -/
def find_tiles_of_rank (rank : Nat) : List (Int × Int) :=
  match rank with
  | 0 => [(0, 1), (0, 2), (0, 3), (0, 4), (0, 5), (0, 6),
          (1, 0), (2, 0), (3, 0), (4, 0), (5, 0), (6, 0),
          (1, 7), (2, 7), (3, 7), (4, 7), (5, 7), (6, 7),
          (7, 1), (7, 2), (7, 3), (7, 4), (7, 5), (7, 6)]
  | 1 => [(1, 1), (1, 2), (1, 3), (1, 4), (1, 5), (1, 6),
          (2, 1), (3, 1), (4, 1), (5, 1),
          (2, 6), (3, 6), (4, 6), (5, 6),
          (6, 1), (6, 2), (6, 3), (6, 4), (6, 5), (6, 6)]
  | 2 => [(2, 2), (2, 3), (2, 4), (2, 5),
          (3, 2), (4, 2),
          (3, 5), (4, 5),
          (5, 2), (5, 3), (5, 4), (5, 5)]
  | 3 => [(3, 3), (3, 4),
          (4, 3), (4, 4)]
  | _ => []

/-- moving_strategy.py lines 96-129. -/
def move_towards_centre (board_state : BoardState) (col row : Int) (_enemy : Char) :
    Option (Int × Int) :=
  let new_row := row
  let new_col := col
  let new_col := if col > 5 then col - 1 else if col < 3 then col + 1 else new_col
  if new_col ≠ col then
    match mkMove board_state col row new_col new_row with
    | none => none
    | some _ => some (new_col, new_row)
  else
    let new_row := if row > 5 then row - 1 else if row < 3 then row + 1 else new_row
    if new_row ≠ row then
      match mkMove board_state col row new_col new_row with
      | none => none
      | some _ => some (new_col, new_row)
    else
      none

/-- moving_strategy.py lines 132-152: scan ranks 0, 1, 2 (range(3))
outside-in, each ring in tile_dict order; for the first cell holding the
player's piece whose move_towards_centre destination exists, rebuild and
return that Move (line 151; its constructor was already validated inside
move_towards_centre, so the none branch of mkMove is unreachable there). -/
def move_to_centre_algorithm (board_state : BoardState) (enemy player : Char)
    (_possmoves : List Move) : Option Move :=
  ((List.range 3).flatMap (fun x => find_tiles_of_rank x)).findSome? fun t =>
    if board_state.output_piece t.1 t.2 == player then
      match move_towards_centre board_state t.1 t.2 enemy with
      | some destination => mkMove board_state t.1 t.2 destination.1 destination.2
      | none => none
    else
      none

/-- moving_strategy.py lines 155-171. -/
def check_move_for_elimination (board_state : BoardState) (enemy player : Char)
    (move : Move) : Bool :=
  let temp_board_state := copyBoard board_state
  let temp_board_state := temp_board_state.modify (Action.mk move) enemy
  let enemy2 := if enemy == 'O' then 'W' else enemy
  if (temp_board_state.search_board enemy2).length ==
     (board_state.search_board enemy2).length then
    false
  else
    true

/-- moving_strategy.py lines 174-208.  The Python function builds and
returns the list move_list, whose elements are Move objects or None: the
first eliminating move if one exists, then the result of
move_to_centre_algorithm (possibly None), then a randomly chosen move.
`r` models random.randint as in do_random_move. -/
def check_easy_elimination (board_state : BoardState) (enemy player : Char)
    (r : Nat) : List (Option Move) :=
  let move_list : List (Option Move) := []
  let poss_moves := if enemy == '@' then generate_moves board_state 'W'
                    else generate_moves board_state 'B'
  if poss_moves.length != 0 then
    let move_list := move_list ++
      (match poss_moves.find?
          (fun move => check_move_for_elimination board_state enemy player move) with
       | some move => [some move]
       | none => [])
    let move_list := move_list ++ [move_to_centre_algorithm board_state enemy player poss_moves]
    let move_list := move_list ++ [poss_moves[r % poss_moves.length]?]
    move_list
  else
    move_list

/-- moving_strategy.py lines 211-217. -/
def evalutate_this_move (board_state : BoardState) (enemy player : Char) (move : Move) : Int :=
  let temp_board_state := copyBoard board_state
  let temp_board_state := temp_board_state.modify (Action.mk move) enemy
  let enemy2 := if enemy == 'O' then 'W' else enemy
  ((temp_board_state.search_board player).length : Int) -
    ((board_state.search_board enemy2).length : Int)

/-! ## player.py control state -/

/-- The control state of Player (player.py lines 29-37): current phase
string, own action counter, and the turn counter synced with the referee.
The board held by the player does not influence phase, counters, or
shrink scheduling, so it is not part of this control state. -/
structure PlayerState where
  phase : String
  total_actions : Nat
  total_turns : Nat
deriving DecidableEq

/-- player.py line 33-37: the freshly constructed player. -/
def initPlayer : PlayerState := ⟨"placing", 0, 0⟩

/-- One referee interaction: an action request carrying the turns
argument, or an update for the opponent's action. -/
inductive Event where
  | action (turns : Nat)
  | update
deriving DecidableEq

/-- player.py lines 57-72 (Player.action, control part): increment
total_actions, sync total_turns from the argument, switch the phase at
the twelfth own action, then call shrink_board when in the moving phase
with the counter at 127 or 191.  The second component records the counter
value at each shrink_board invocation of this call. -/
def actionStep (s : PlayerState) (turns : Nat) : PlayerState × List Nat :=
  let s1 : PlayerState := ⟨s.phase, s.total_actions + 1, turns⟩
  let s2 : PlayerState :=
    if s1.phase == "placing" then
      if s1.total_actions == 12 then ⟨"moving", s1.total_actions, 0⟩ else s1
    else s1
  if s2.phase == "moving" then
    if s2.total_turns == 127 then (s2, [s2.total_turns])
    else if s2.total_turns == 191 then (s2, [s2.total_turns])
    else (s2, [])
  else (s2, [])

/-- player.py lines 88-98 (Player.update, control part): increment
total_turns, then call shrink_board when in the moving phase with the
counter at 127 or 191. -/
def updateStep (s : PlayerState) : PlayerState × List Nat :=
  let s1 : PlayerState := ⟨s.phase, s.total_actions, s.total_turns + 1⟩
  if s1.phase == "moving" then
    if s1.total_turns == 127 then (s1, [s1.total_turns])
    else if s1.total_turns == 191 then (s1, [s1.total_turns])
    else (s1, [])
  else (s1, [])

/-- Dispatch one referee interaction. -/
def stepEvent (s : PlayerState) : Event → PlayerState × List Nat
  | .action turns => actionStep s turns
  | .update => updateStep s

/-- Run a sequence of referee interactions, collecting the turn-counter
values at every shrink_board invocation, in order. -/
def runPlayer : PlayerState → List Event → PlayerState × List Nat
  | s, [] => (s, [])
  | s, e :: es =>
    let p := stepEvent s e
    let q := runPlayer p.1 es
    (q.1, p.2 ++ q.2)

/-- The (phase, turn-counter) observation after each interaction. -/
def runObs : PlayerState → List Event → List (String × Nat)
  | _, [] => []
  | s, e :: es =>
    let p := stepEvent s e
    (p.1.phase, p.1.total_turns) :: runObs p.1 es

/-- The number of Player.action calls in an interaction sequence. -/
def actionCount : List Event → Nat
  | [] => 0
  | .action _ :: es => actionCount es + 1
  | .update :: es => actionCount es

/-! ## Concrete test boards -/

/-- The fresh 8x8 grid: corners 'X', playable cells '-', off-board ' '. -/
def baseGrid : Int → Int → Char := fun c r =>
  if (c = 0 ∨ c = 7) ∧ (r = 0 ∨ r = 7) then 'X'
  else if 0 ≤ c ∧ c ≤ 7 ∧ 0 ≤ r ∧ r ≤ 7 then '-'
  else ' '

/-- Overlay the given pieces on a grid. -/
def placePieces (g : Int → Int → Char) (ps : List ((Int × Int) × Char)) :
    Int → Int → Char :=
  fun c r => match ps.find? (fun q => q.1 == (c, r)) with
             | some q => q.2
             | none => g c r

/-- A fresh, unshrunk board holding the given pieces. -/
def mkBoard (ps : List ((Int × Int) × Char)) : BoardState :=
  ⟨placePieces baseGrid ps, 0⟩

/-! ## Spec-side distance measure -/

/-- Distance of a cell to the geometric board centre (3.5, 3.5), doubled
so it stays integral; used only to state the centralizing-policy claim. -/
def specDistToCentre (col row : Int) : Nat :=
  (2 * col - 7).natAbs + (2 * row - 7).natAbs

/-- A coordinate lies inside the 8x8 grid. -/
def inGrid8 (p : Int × Int) : Bool :=
  decide (0 ≤ p.1) && decide (p.1 ≤ 7) && decide (0 ≤ p.2) && decide (p.2 ≤ 7)

/-- A coordinate is one of the four board corners. -/
def isCornerCell (p : Int × Int) : Bool :=
  p == (0, 0) || p == (0, 7) || p == (7, 0) || p == (7, 7)

/-- No coordinate of the first list occurs in the second. -/
def disjointB (l1 l2 : List (Int × Int)) : Bool :=
  l1.all (fun p => !(l2.contains p))

/-! ## C9: properties of find_tiles_of_rank -/

/-- C9: for every rank 0-3, find_tiles_of_rank returns only coordinates
inside the 8x8 grid, never one of the four corner cells, and the four
lists are pairwise disjoint. -/
theorem find_tiles_of_rank_props :
    ((find_tiles_of_rank 0 ++ find_tiles_of_rank 1 ++
      find_tiles_of_rank 2 ++ find_tiles_of_rank 3).all
        (fun p => inGrid8 p && !(isCornerCell p))
     && disjointB (find_tiles_of_rank 0) (find_tiles_of_rank 1)
     && disjointB (find_tiles_of_rank 0) (find_tiles_of_rank 2)
     && disjointB (find_tiles_of_rank 0) (find_tiles_of_rank 3)
     && disjointB (find_tiles_of_rank 1) (find_tiles_of_rank 2)
     && disjointB (find_tiles_of_rank 1) (find_tiles_of_rank 3)
     && disjointB (find_tiles_of_rank 2) (find_tiles_of_rank 3)) = true := by
  decide

/-! ## C2: shape of the check_easy_elimination result -/

/-- A board with a single white piece at (3, 3) and black to be the enemy:
white has four legal moves, none eliminating, and no piece in ranks 0-2. -/
def c2Board : BoardState := mkBoard [((3, 3), 'O')]

/-- C2: at c2Board, check_easy_elimination does not produce a single Move:
it returns the two-element list whose first element is the None appended
from move_to_centre_algorithm and whose second is the randomly chosen
move; the elimination scan, centre fallback and random choice are all
appended to the returned list instead of being alternatives. -/
theorem check_easy_elimination_returns_list :
    (check_easy_elimination c2Board '@' 'O' 0).length = 2 ∧
    (check_easy_elimination c2Board '@' 'O' 0).head? = some none ∧
    check_easy_elimination c2Board '@' 'O' 0 =
      [none, some (Move.mk (3, 3) (3, 4))] := by
  decide

/-! ## C1, C5, C10: the turn/phase automaton -/

/-- Each interaction invokes shrink_board exactly when, after its counter
update, the phase is moving and the counter reads 127 or 191. -/
theorem stepEvent_shrinks (s : PlayerState) (e : Event) :
    (stepEvent s e).2 =
      (if (stepEvent s e).1.phase == "moving"
          && ((stepEvent s e).1.total_turns == 127
              || (stepEvent s e).1.total_turns == 191)
       then [(stepEvent s e).1.total_turns] else []) := by
  cases e <;> simp only [stepEvent, actionStep, updateStep] <;>
    (repeat' split) <;> simp_all

/-- Splitting a run at an interaction boundary. -/
theorem runPlayer_append_fst (es es' : List Event) : ∀ s : PlayerState,
    (runPlayer s (es ++ es')).1 = (runPlayer (runPlayer s es).1 es').1 := by
  induction es with
  | nil => intro s; rfl
  | cons e es ih =>
    intro s
    simp only [List.cons_append, runPlayer]
    exact ih (stepEvent s e).1

/-- No interaction ever leaves the moving phase. -/
theorem stepEvent_moving (s : PlayerState) (e : Event) (h : s.phase = "moving") :
    (stepEvent s e).1.phase = "moving" := by
  cases e <;> simp only [stepEvent, actionStep, updateStep] <;>
    (repeat' split) <;> simp_all

/-- Once the player is in the moving phase it stays there. -/
theorem runPlayer_moving (es : List Event) : ∀ s : PlayerState,
    s.phase = "moving" → (runPlayer s es).1.phase = "moving" := by
  induction es with
  | nil => intro s h; exact h
  | cons e es ih =>
    intro s h
    simp only [runPlayer]
    exact ih (stepEvent s e).1 (stepEvent_moving s e h)

/-- C1 (amended): over any interleaving of Player.action and Player.update
calls, shrink_board is invoked at exactly those calls after which the
phase is moving and the turn counter equals 127 or 191, once per such
call, at that counter value. -/
theorem runPlayer_shrink_schedule : ∀ (es : List Event) (s : PlayerState),
    (runPlayer s es).2 =
      ((runObs s es).filter
          (fun o => o.1 == "moving" && (o.2 == 127 || o.2 == 191))).map Prod.snd := by
  intro es
  induction es with
  | nil => intro s; rfl
  | cons e es ih =>
    intro s
    simp only [runPlayer, runObs, List.filter]
    rw [stepEvent_shrinks]
    by_cases h : ((stepEvent s e).1.phase == "moving"
        && ((stepEvent s e).1.total_turns == 127
            || (stepEvent s e).1.total_turns == 191)) = true
    · simp [h, ih (stepEvent s e).1]
    · simp [h, ih (stepEvent s e).1]

/-- An interleaving refuting C1 as stated: twelve placements followed by
two action calls whose referee-supplied turns argument is 127 both times.
shrink_board fires twice, both times at counter 127 and never at 191. -/
def c1Trace : List Event :=
  List.replicate 12 (Event.action 0) ++ [Event.action 127, Event.action 127]

/-- C1 counterexample: on c1Trace the shrink invocations are [127, 127],
not one invocation at 127 followed by one at 191. -/
theorem shrink_schedule_cex :
    (runPlayer initPlayer c1Trace).2 = [127, 127] ∧
    (runPlayer initPlayer c1Trace).2 ≠ [127, 191] := by
  decide

/-- While the player is in the placing phase with fewer than twelve own
actions, the run ends in the moving phase exactly when the whole sequence
brings its own action count to twelve or more. -/
theorem runPlayer_phase_of_placing : ∀ (es : List Event) (s : PlayerState),
    s.phase = "placing" → s.total_actions < 12 →
    ((runPlayer s es).1.phase = "moving" ↔ 12 ≤ s.total_actions + actionCount es) := by
  intro es
  induction es with
  | nil =>
    intro s h1 h2
    simp only [runPlayer, actionCount, h1]
    constructor
    · intro h; exact absurd h (by simp)
    · omega
  | cons e es ih =>
    intro s h1 h2
    cases e with
    | update =>
      have hstep : (stepEvent s .update).1 = ⟨s.phase, s.total_actions, s.total_turns + 1⟩ := by
        simp only [stepEvent, updateStep]
        repeat' split <;> simp_all
      simp only [runPlayer, actionCount, hstep]
      exact ih ⟨s.phase, s.total_actions, s.total_turns + 1⟩ h1 h2
    | action t =>
      by_cases h12 : s.total_actions + 1 = 12
      · have hstep : (stepEvent s (.action t)).1.phase = "moving" := by
          simp only [stepEvent, actionStep, h1, h12]
          repeat' split <;> simp_all
        have hmv := runPlayer_moving es (stepEvent s (.action t)).1 hstep
        simp only [runPlayer, actionCount]
        constructor
        · intro _; omega
        · intro _; exact hmv
      · have hstep : (stepEvent s (.action t)).1 =
            ⟨s.phase, s.total_actions + 1, t⟩ := by
          simp only [stepEvent, actionStep, h1]
          repeat' split <;> simp_all
        simp only [runPlayer, actionCount, hstep]
        rw [ih ⟨s.phase, s.total_actions + 1, t⟩ h1 (by dsimp only; omega)]
        dsimp only
        omega

/-- C5 (amended): over any interaction sequence, the phase is moving
exactly when the agent itself has performed at least twelve actions; the
transition happens at the agent's own twelfth action, and the opponent's
placement count is never consulted. -/
theorem phase_flip_at_own_twelfth_action : ∀ es : List Event,
    (runPlayer initPlayer es).1.phase = "moving" ↔ 12 ≤ actionCount es := by
  intro es
  have := runPlayer_phase_of_placing es initPlayer rfl (by decide)
  simpa [initPlayer] using this

/-- C5 counterexample: after twelve Player.action calls and no opponent
update at all (the opponent has placed zero pieces), the phase has already
switched to moving. -/
theorem phase_flip_cex :
    (runPlayer initPlayer (List.replicate 12 (Event.action 0))).1.phase = "moving" ∧
    (List.replicate 12 (Event.action 0)).countP
      (fun e => match e with | Event.update => true | Event.action _ => false) = 0 := by
  decide

/-- No interaction leaves the phase outside the two-element set. -/
theorem stepEvent_phase_values (s : PlayerState) (e : Event)
    (h : s.phase = "placing" ∨ s.phase = "moving") :
    (stepEvent s e).1.phase = "placing" ∨ (stepEvent s e).1.phase = "moving" := by
  cases e <;> simp only [stepEvent, actionStep, updateStep] <;>
    (repeat' split) <;> simp_all

/-- Reachable phases are only "placing" and "moving". -/
theorem runPlayer_phase_values (es : List Event) : ∀ s : PlayerState,
    s.phase = "placing" ∨ s.phase = "moving" →
    (runPlayer s es).1.phase = "placing" ∨ (runPlayer s es).1.phase = "moving" := by
  induction es with
  | nil => intro s h; exact h
  | cons e es ih =>
    intro s h
    simp only [runPlayer]
    exact ih (stepEvent s e).1 (stepEvent_phase_values s e h)

/-- C10: over every sequence of Player.action and Player.update calls the
phase only takes the values "placing" and "moving", and once it is
"moving" it stays "moving" under any further calls. -/
theorem phase_values_and_monotone : ∀ es es' : List Event,
    ((runPlayer initPlayer es).1.phase = "placing" ∨
     (runPlayer initPlayer es).1.phase = "moving") ∧
    ((runPlayer initPlayer es).1.phase = "moving" →
     (runPlayer initPlayer (es ++ es')).1.phase = "moving") := by
  intro es es'
  refine ⟨runPlayer_phase_values es initPlayer (Or.inl rfl), ?_⟩
  intro h
  rw [runPlayer_append_fst]
  exact runPlayer_moving es' _ h

/-- C10 witness: after twelve actions the phase is moving, and it is still
moving after a further update call. -/
theorem phase_values_and_monotone_witness :
    ((runPlayer initPlayer (List.replicate 12 (Event.action 0))).1.phase = "placing" ∨
     (runPlayer initPlayer (List.replicate 12 (Event.action 0))).1.phase = "moving") ∧
    (runPlayer initPlayer (List.replicate 12 (Event.action 0) ++ [Event.update])).1.phase
      = "moving" :=
  ⟨(phase_values_and_monotone (List.replicate 12 (Event.action 0)) [Event.update]).1,
   (phase_values_and_monotone (List.replicate 12 (Event.action 0)) [Event.update]).2
     (by decide)⟩

/-! ## C4, C7: capture detection and move evaluation -/

/-- Applying a move never increases the count of cells holding the enemy
piece: the move places the mover's own piece and captures remove only
enemy pieces. -/
theorem modify_enemy_count_le (b : BoardState) (m : Move) (enemy : Char)
    (he : enemy = 'O' ∨ enemy = '@') :
    ((b.modify (Action.mk m) enemy).search_board enemy).length
      ≤ (b.search_board enemy).length := by
  unfold BoardState.search_board
  rw [← List.countP_eq_length_filter, ← List.countP_eq_length_filter]
  apply List.countP_mono_left
  intro p _ hpost
  rcases he with he | he <;> subst he <;>
  · simp only [BoardState.modify] at hpost
    split at hpost
    · exact absurd hpost (by decide)
    · split at hpost
      · exact absurd hpost (by decide)
      · split at hpost
        · exact absurd hpost (by decide)
        · exact hpost

/-- The result of check_move_for_elimination is the inequality test on the
enemy piece counts before and after the simulated move. -/
theorem check_move_via_counts (b : BoardState) (enemy player : Char) (m : Move)
    (he : enemy = 'O' ∨ enemy = '@') :
    check_move_for_elimination b enemy player m =
      !(((b.modify (Action.mk m) enemy).search_board enemy).length ==
        (b.search_board enemy).length) := by
  have hcopy : copyBoard b = b := rfl
  have hW : ∀ x : BoardState, x.search_board 'W' = x.search_board 'O' := fun _ => rfl
  rcases he with he | he <;> subst he <;>
    simp only [check_move_for_elimination, hcopy, hW] <;>
    cases hAB : (((b.modify (Action.mk m) _).search_board _).length ==
        ((b.search_board _).length)) <;>
    simp_all

/-- C4: check_move_for_elimination returns true exactly when applying the
move reduces the opponent's search_board count by at least one, and when
it returns false that count is unchanged. -/
theorem check_move_for_elimination_correct (b : BoardState) (enemy player : Char)
    (m : Move) (he : enemy = 'O' ∨ enemy = '@') :
    (check_move_for_elimination b enemy player m = true ↔
      ((b.modify (Action.mk m) enemy).search_board enemy).length + 1
        ≤ (b.search_board enemy).length) ∧
    (check_move_for_elimination b enemy player m = false →
      ((b.modify (Action.mk m) enemy).search_board enemy).length
        = (b.search_board enemy).length) := by
  have hle := modify_enemy_count_le b m enemy he
  rw [check_move_via_counts b enemy player m he]
  cases hAB : (((b.modify (Action.mk m) enemy).search_board enemy).length ==
      ((b.search_board enemy).length))
  · have hne := ne_of_beq_false hAB
    constructor
    · simp only [hAB, Bool.not_false, true_iff]
      omega
    · intro hh
      exact absurd hh (by simp [hAB])
  · have heq := eq_of_beq hAB
    constructor
    · constructor
      · intro h
        exact absurd h (by decide)
      · intro h
        exact absurd heq (by omega)
    · intro _
      exact heq

/-- The board used against C4 and C7: white at (3,4) and (5,3), black at
(4,3); white moving (3,4) to (3,3) flanks the black piece against (5,3)
and captures it. -/
def c7Board : BoardState := mkBoard [((3, 4), 'O'), ((4, 3), '@'), ((5, 3), 'O')]

/-- The capturing move on c7Board. -/
def c7Move : Move := ⟨(3, 4), (3, 3)⟩

/-- C4 witness: on c7Board the equivalence holds at a capturing move. -/
theorem check_move_for_elimination_witness :
    check_move_for_elimination c7Board '@' 'O' c7Move = true ↔
      ((c7Board.modify (Action.mk c7Move) '@').search_board '@').length + 1
        ≤ (c7Board.search_board '@').length :=
  (check_move_for_elimination_correct c7Board '@' 'O' c7Move (Or.inr rfl)).1

/-- C7 (amended): evalutate_this_move returns the acting player's live
piece count on the post-move board minus the opponent's live piece count
on the PRE-move board. -/
theorem evalutate_this_move_spec (b : BoardState) (enemy player : Char) (m : Move)
    (he : enemy = 'O' ∨ enemy = '@') :
    evalutate_this_move b enemy player m =
      (((b.modify (Action.mk m) enemy).search_board player).length : Int) -
        ((b.search_board enemy).length : Int) := by
  rcases he with he | he <;> subst he <;> rfl

/-- C7 counterexample: on c7Board the capturing move scores 2 - 1 = 1,
not the post-move difference 2 - 0 = 2 the claim states. -/
theorem evalutate_this_move_cex :
    evalutate_this_move c7Board '@' 'O' c7Move ≠
      (((c7Board.modify (Action.mk c7Move) '@').search_board 'O').length : Int) -
        (((c7Board.modify (Action.mk c7Move) '@').search_board '@').length : Int) := by
  decide

/-- C7 witness: the amended equation evaluated on c7Board. -/
theorem evalutate_this_move_witness :
    evalutate_this_move c7Board '@' 'O' c7Move =
      (((c7Board.modify (Action.mk c7Move) '@').search_board 'O').length : Int) -
        ((c7Board.search_board '@').length : Int) :=
  evalutate_this_move_spec c7Board '@' 'O' c7Move (Or.inr rfl)

/-! ## C3: the centralizing policy -/

/-- Any destination produced by move_towards_centre strictly reduces the
doubled distance to the board centre. -/
theorem move_towards_centre_dist (b : BoardState) (col row : Int) (e : Char)
    (d : Int × Int) (h : move_towards_centre b col row e = some d) :
    specDistToCentre d.1 d.2 < specDistToCentre col row := by
  simp only [move_towards_centre] at h
  by_cases h5 : col > 5 <;> by_cases h3 : col < 3 <;>
    simp only [h5, h3, if_true, if_false, ite_true, ite_false] at h
  · omega
  · rw [if_pos (show col - 1 ≠ col by omega)] at h
    split at h
    · cases h
    · injection h with h
      subst h
      simp only [specDistToCentre]
      omega
  · rw [if_pos (show col + 1 ≠ col by omega)] at h
    split at h
    · cases h
    · injection h with h
      subst h
      simp only [specDistToCentre]
      omega
  · rw [if_neg (show ¬(col ≠ col) by omega)] at h
    by_cases r5 : row > 5 <;> by_cases r3 : row < 3 <;>
      simp only [r5, r3, if_true, if_false, ite_true, ite_false] at h
    · omega
    · rw [if_pos (show row - 1 ≠ row by omega)] at h
      split at h
      · cases h
      · injection h with h
        subst h
        simp only [specDistToCentre]
        omega
    · rw [if_pos (show row + 1 ≠ row by omega)] at h
      split at h
      · cases h
      · injection h with h
        subst h
        simp only [specDistToCentre]
        omega
    · rw [if_neg (show ¬(row ≠ row) by omega)] at h
      cases h

/-- C3 (amended): whenever the centralizing scan over ranks 0-2 returns a
move, its source holds the acting player's piece, the move's constructor
validates (destination empty and active), and it strictly reduces the
distance to the board centre. -/
theorem move_to_centre_algorithm_spec (b : BoardState) (enemy player : Char)
    (poss : List Move) (m : Move)
    (h : move_to_centre_algorithm b enemy player poss = some m) :
    b.output_piece m.src.1 m.src.2 = player ∧
    mkMove b m.src.1 m.src.2 m.dst.1 m.dst.2 = some m ∧
    specDistToCentre m.dst.1 m.dst.2 < specDistToCentre m.src.1 m.src.2 := by
  unfold move_to_centre_algorithm at h
  obtain ⟨t, ht, hf⟩ := List.exists_of_findSome?_eq_some h
  by_cases hp : (b.output_piece t.1 t.2 == player) = true
  · rw [if_pos hp] at hf
    cases hd : move_towards_centre b t.1 t.2 enemy with
    | none =>
      rw [hd] at hf
      cases hf
    | some destination =>
      rw [hd] at hf
      change mkMove b t.1 t.2 destination.1 destination.2 = some m at hf
      have hdist := move_towards_centre_dist b t.1 t.2 enemy destination hd
      have hm : Move.mk (t.1, t.2) (destination.1, destination.2) = m := by
        unfold mkMove at hf
        split at hf
        · injection hf
        · cases hf
      subst hm
      exact ⟨eq_of_beq hp, hf, hdist⟩
  · rw [if_neg hp] at hf
    cases hf

/-- A board refuting C3 as stated: the only white piece sits at (1, 1) and
its preferred column adjustment into (2, 1) is blocked by a black piece,
so the scan skips it without trying the row adjustment into (1, 2). -/
def c3Board : BoardState := mkBoard [((1, 1), 'O'), ((2, 1), '@')]

/-- C3 counterexample: on c3Board the centralizing policy returns nothing,
although the white piece at (1, 1) has the legal one-step move to (1, 2)
that strictly reduces its distance to the centre. -/
theorem move_to_centre_algorithm_cex :
    move_to_centre_algorithm c3Board '@' 'O' (generate_moves c3Board 'W') = none ∧
    c3Board.output_piece 1 1 = 'O' ∧
    mkMove c3Board 1 1 1 2 = some ⟨(1, 1), (1, 2)⟩ ∧
    specDistToCentre 1 2 < specDistToCentre 1 1 := by
  decide

/-- The board witnessing the amended C3: a lone white piece at (1, 1)
whose column adjustment into (2, 1) is legal. -/
def c3WBoard : BoardState := mkBoard [((1, 1), 'O')]

/-- C3 witness: the amended statement evaluated where the scan returns
the move (1, 1) to (2, 1). -/
theorem move_to_centre_algorithm_spec_witness :
    c3WBoard.output_piece 1 1 = 'O' ∧
    mkMove c3WBoard 1 1 2 1 = some ⟨(1, 1), (2, 1)⟩ ∧
    specDistToCentre 2 1 < specDistToCentre 1 1 :=
  move_to_centre_algorithm_spec c3WBoard '@' 'O' [] ⟨(1, 1), (2, 1)⟩ (by decide)

/-! ## C6: random move and forfeit reporting -/

/-- Every move produced by generate_moves starts on an active cell holding
the colour and ends on an empty active cell. -/
theorem mem_generate_moves (b : BoardState) (c : Char) (m : Move)
    (h : m ∈ generate_moves b c) :
    b.inActive m.src.1 m.src.2 = true ∧
    b.grid m.src.1 m.src.2 = charToPiece c ∧
    b.inActive m.dst.1 m.dst.2 = true ∧
    b.grid m.dst.1 m.dst.2 = '-' := by
  unfold generate_moves at h
  rw [List.mem_flatMap] at h
  obtain ⟨p, hp, hm⟩ := h
  split at hm
  case isTrue hcond =>
    simp only [Bool.and_eq_true] at hcond
    obtain ⟨hact, hpc⟩ := hcond
    rw [List.mem_flatMap] at hm
    obtain ⟨d, hd, hm⟩ := hm
    rw [List.mem_append] at hm
    rcases hm with hm | hm
    · split at hm
      case isTrue hc1 =>
        simp only [Bool.and_eq_true] at hc1
        rw [List.mem_singleton] at hm
        subst hm
        exact ⟨hact, eq_of_beq hpc, hc1.1, eq_of_beq hc1.2⟩
      case isFalse => cases hm
    · split at hm
      case isTrue hc2 =>
        simp only [Bool.and_eq_true] at hc2
        rw [List.mem_singleton] at hm
        subst hm
        exact ⟨hact, eq_of_beq hpc, hc2.2.1, eq_of_beq hc2.2.2⟩
      case isFalse => cases hm
  case isFalse => cases hm

/-- C6: do_random_move returns none exactly when the move generator for
the acting colour returns the empty list, in which case the moving-phase
Player.action reports none to the referee; otherwise the returned Action
wraps one of the generated moves, whose destination is empty and active. -/
theorem do_random_move_spec (b : BoardState) (enemy : Char) (r : Nat) :
    (do_random_move b enemy r = none ↔ generate_move b enemy = []) ∧
    (moving_phase_action b enemy r = none ↔ generate_move b enemy = []) ∧
    (∀ a : Action, do_random_move b enemy r = some a →
      a.move ∈ generate_move b enemy ∧
      b.inActive a.move.dst.1 a.move.dst.2 = true ∧
      b.grid a.move.dst.1 a.move.dst.2 = '-') := by
  by_cases h0 : (generate_move b enemy).length = 0
  · have hnil : generate_move b enemy = [] := List.length_eq_zero.mp h0
    have hdr : do_random_move b enemy r = none := by
      show (if ((generate_move b enemy).length != 0) = true
            then ((generate_move b enemy)[r % (generate_move b enemy).length]?).map
                   (fun move => Action.mk move)
            else none) = none
      rw [if_neg (by simp [h0])]
    have hma : moving_phase_action b enemy r = none := by
      show (match do_random_move b enemy r with
            | none => none
            | some a => some a.return_action) = none
      rw [hdr]
    refine ⟨by simp [hdr, hnil], by simp [hma, hnil], ?_⟩
    intro a ha
    rw [hdr] at ha
    cases ha
  · have hpos : 0 < (generate_move b enemy).length := Nat.pos_of_ne_zero h0
    have hi := Nat.mod_lt r hpos
    have hne : generate_move b enemy ≠ [] := by
      intro hh
      rw [hh] at h0
      exact h0 rfl
    have hdr : do_random_move b enemy r =
        some (Action.mk ((generate_move b enemy)[r % (generate_move b enemy).length])) := by
      show (if ((generate_move b enemy).length != 0) = true
            then ((generate_move b enemy)[r % (generate_move b enemy).length]?).map
                   (fun move => Action.mk move)
            else none) = _
      rw [if_pos (by simp [h0]), List.getElem?_eq_getElem hi]
      rfl
    have hma : moving_phase_action b enemy r =
        some ((generate_move b enemy)[r % (generate_move b enemy).length]) := by
      show (match do_random_move b enemy r with
            | none => none
            | some a => some a.return_action) = _
      rw [hdr]
      rfl
    refine ⟨by simp [hdr, hne], by simp [hma, hne], ?_⟩
    intro a ha
    rw [hdr] at ha
    injection ha with ha
    subst ha
    set x := (generate_move b enemy)[r % (generate_move b enemy).length] with hx
    have hmem : x ∈ generate_move b enemy := by
      rw [hx]
      exact List.getElem_mem hi
    refine ⟨hmem, ?_, ?_⟩
    · cases hE : (enemy == '@') with
      | true =>
        have hgw : generate_move b enemy = generate_moves b 'W' := by
          simp [generate_move, hE]
        rw [hgw] at hmem
        exact (mem_generate_moves b 'W' x hmem).2.2.1
      | false =>
        have hgb : generate_move b enemy = generate_moves b 'B' := by
          simp [generate_move, hE]
        rw [hgb] at hmem
        exact (mem_generate_moves b 'B' x hmem).2.2.1
    · cases hE : (enemy == '@') with
      | true =>
        have hgw : generate_move b enemy = generate_moves b 'W' := by
          simp [generate_move, hE]
        rw [hgw] at hmem
        exact (mem_generate_moves b 'W' x hmem).2.2.2
      | false =>
        have hgb : generate_move b enemy = generate_moves b 'B' := by
          simp [generate_move, hE]
        rw [hgb] at hmem
        exact (mem_generate_moves b 'B' x hmem).2.2.2

/-- C6 witness: on the board with a lone white piece at (3, 3), the action
returned for r = 0 wraps the generated move (3, 3) to (3, 4). -/
theorem do_random_move_spec_witness :
    (Action.mk ⟨(3, 3), (3, 4)⟩).move ∈ generate_move c2Board '@' ∧
    c2Board.inActive (Action.mk ⟨(3, 3), (3, 4)⟩).move.dst.1
      (Action.mk ⟨(3, 3), (3, 4)⟩).move.dst.2 = true ∧
    c2Board.grid (Action.mk ⟨(3, 3), (3, 4)⟩).move.dst.1
      (Action.mk ⟨(3, 3), (3, 4)⟩).move.dst.2 = '-' :=
  (do_random_move_spec c2Board '@' 0).2.2 (Action.mk ⟨(3, 3), (3, 4)⟩) (by decide)

/-! ## C8: simulation happens on a disposable copy -/

/-- check_move_for_elimination in state-passing form: alongside the
Boolean result, the second component is the caller's board_state as the
call leaves it — the body only reads board_state (search_board) and
mutates the private copy temp_board_state. -/
def check_move_for_elimination_frame (board_state : BoardState) (enemy player : Char)
    (move : Move) : Bool × BoardState :=
  let temp_board_state := copyBoard board_state
  let temp_board_state := temp_board_state.modify (Action.mk move) enemy
  let enemy2 := if enemy == 'O' then 'W' else enemy
  (if (temp_board_state.search_board enemy2).length ==
      (board_state.search_board enemy2).length then false else true,
   board_state)

/-- evalutate_this_move in the same state-passing form. -/
def evalutate_this_move_frame (board_state : BoardState) (enemy player : Char)
    (move : Move) : Int × BoardState :=
  let temp_board_state := copyBoard board_state
  let temp_board_state := temp_board_state.modify (Action.mk move) enemy
  let enemy2 := if enemy == 'O' then 'W' else enemy
  (((temp_board_state.search_board player).length : Int) -
    ((board_state.search_board enemy2).length : Int),
   board_state)

/-- C8: after either simulation the caller's board is unchanged - every
cell's occupancy and the active region (shrink count) keep their pre-call
values - and the computed results agree with the plain functions. -/
theorem simulation_frame (b : BoardState) (enemy player : Char) (m : Move) (c r : Int) :
    ((check_move_for_elimination_frame b enemy player m).2.output_piece c r
      = b.output_piece c r) ∧
    ((check_move_for_elimination_frame b enemy player m).2.shrinks = b.shrinks) ∧
    ((check_move_for_elimination_frame b enemy player m).1
      = check_move_for_elimination b enemy player m) ∧
    ((evalutate_this_move_frame b enemy player m).2.output_piece c r
      = b.output_piece c r) ∧
    ((evalutate_this_move_frame b enemy player m).2.shrinks = b.shrinks) ∧
    ((evalutate_this_move_frame b enemy player m).1
      = evalutate_this_move b enemy player m) :=
  ⟨rfl, rfl, rfl, rfl, rfl, rfl⟩

end WYB
